import Mathlib

/-!
Verification of `src/install_appimage.py` (the `install_appimage` procedure).

The script is embedded shallowly:

* Absolute filesystem paths are lists of path segments (`Segs`); the
  filesystem outside the scratch extraction directory is a finite map from
  paths to file contents together with permission bits and a set of
  directories (`FS`).
* The scratch extraction directory (`~/Applications/.temp_extraction`) is
  modelled as a separate component of the run state: `Option XTree`, where
  `XTree` describes the contents of the `squashfs-root` subdirectory
  produced by `--appimage-extract` (regular files and symbolic links).
* External nondeterminism (whether `shutil.move` raises, whether the
  AppImage's self-extraction exits zero, what tree it produces, and whether
  an exception is raised during icon discovery/installation) is an
  explicit environment value `Env` threaded through the embedding.
* Python string operations used by the script (`str.lower`, `str.title`,
  single-character `str.replace`, `Path.stem`, `Path.suffix`, string
  comparison by code point) are reproduced over `List Char`.
* Python's stable ascending `list.sort` is modelled by `List.insertionSort`
  (any stable ascending sort computes the same list).
-/

namespace InstallAppimage

/-- Code-point comparison of character lists: the order Python uses to
compare strings (`str` comparison compares code points lexicographically). -/
def charsLe : List Char → List Char → Bool
  | [], _ => true
  | _ :: _, [] => false
  | a :: as, b :: bs =>
    if a.toNat < b.toNat then true
    else if b.toNat < a.toNat then false
    else charsLe as bs

/-- Python string `<=` (lexicographic by code point). -/
def strLe (a b : String) : Bool := charsLe a.data b.data

/-- A path, as the list of its segments. -/
abbrev Segs := List String

/-- Render an absolute path (list of segments) the way `str(Path(...))`
prints it. -/
def renderPath (p : Segs) : String := "/" ++ String.intercalate "/" p

/-- The full path string of a file at relative segments `p` below the
directory whose rendered path is `root` (used as the sort key, matching
`str(p)` in the script). -/
def fullPathStr (root : String) (p : Segs) : String :=
  root ++ "/" ++ String.intercalate "/" p

/-- An entry of the extracted `squashfs-root` tree: a regular file with its
byte content (modelled as a string), or a symbolic link to another path
inside the tree. -/
inductive XEntry where
  | regular (content : String)
  | symlink (target : Segs)
deriving DecidableEq

/-- The contents of the extraction root (`squashfs-root`), as an association
list from relative paths to entries. -/
abbrev XTree := List (Segs × XEntry)

/-- Entry stored at path `p` of the tree (first match wins). -/
def lookupX (t : XTree) (p : Segs) : Option XEntry :=
  match t with
  | [] => none
  | (q, e) :: rest => if q = p then some e else lookupX rest p

/-- Follow symbolic links starting at `p` for at most `fuel` steps,
returning the path of the regular file finally reached, if any.  This is
`Path.resolve()` (non-strict) composed with the existence check the script
performs right after it: the result is `some q` exactly when the chain of
links from `p` ends at an existing regular file `q`. -/
def resolveX (t : XTree) (fuel : Nat) (p : Segs) : Option Segs :=
  match fuel with
  | 0 => none
  | fuel' + 1 =>
    match lookupX t p with
    | some (.regular _) => some p
    | some (.symlink q) => resolveX t fuel' q
    | none => none

/-- Enough fuel to follow any acyclic link chain in `t`. -/
def followFuel (t : XTree) : Nat := t.length + 1

/-- `Path.exists()` on a path inside the tree: Python's `exists` follows
symbolic links, so a dangling link does not exist. -/
def existsFollow (t : XTree) (p : Segs) : Bool := (resolveX t (followFuel t) p).isSome

/-- Content obtained by reading the file at `p`, following symbolic links
(the behaviour of `shutil.copy` on a link). -/
def readThrough (t : XTree) (p : Segs) : Option String :=
  match resolveX t (followFuel t) p with
  | some q =>
    match lookupX t q with
    | some (.regular c) => some c
    | _ => none
  | none => none

/-- Whether a relative path matches the glob patterns
`usr/share/icons/hicolor/*/apps/*.png` or `usr/share/icons/hicolor/*/apps/*.svg`
(lines 73 and 74 of the script): `*` matches one whole segment. -/
def themedIconMatch (p : Segs) : Bool :=
  match p with
  | [a, b, c, d, _, f, g] =>
    a == "usr" && b == "share" && c == "icons" && d == "hicolor" && f == "apps" &&
      (sufMatch g ".png" || sufMatch g ".svg")
  | _ => false
where
  /-- Does string `s` end with `suf` (segment pattern `*.png` / `*.svg`)? -/
  sufMatch (s suf : String) : Bool :=
    s.data.drop (s.data.length - suf.data.length) == suf.data

/-- The paths produced by the two `glob` calls of lines 73 and 74: every
path present in the tree that matches the themed-icon pattern. -/
def globThemedIcons (t : XTree) : List Segs :=
  (t.map Prod.fst).filter themedIconMatch

/-- Comparison of candidate paths by their full path string — the sort key
`lambda p: str(p)` of line 90. -/
def pathLe (root : String) (a b : Segs) : Prop :=
  strLe (fullPathStr root a) (fullPathStr root b) = true

instance (root : String) : DecidableRel (pathLe root) :=
  fun _ _ => instDecidableEqBool _ _

/-- Line 90 of the script, `icon_glob.sort(key=lambda p: str(p))`: Python's
stable ascending sort, modelled by insertion sort (any stable ascending
sort computes the same list). -/
def sortIcons (root : String) (l : List Segs) : List Segs :=
  List.insertionSort (pathLe root) l

/-- The relative path of the default-icon indirection file `.DirIcon`
(line 68). -/
def dirIconSegs : Segs := [".DirIcon"]

/-- Lines 64–91 of the script: candidate discovery.  `root` is the rendered
absolute path of the extraction root (used only as the common prefix of the
sort keys).  Returns the relative path (inside the tree) of the chosen
icon, or `none` when discovery failed.

* `candidate_icons` holds `.DirIcon` when `(extracted_root / ".DirIcon").exists()`
  — an existence test that follows symbolic links.
* If `candidate_icons` is non-empty, the script resolves its head and uses
  it only when the resolved target exists (`resolveX` is exactly this
  resolve-then-check combination); otherwise `icon_path` stays `None` and —
  because the glob branch is an `elif` — the themed icons are not consulted.
* Only when `candidate_icons` is empty does the script sort the glob
  matches and take the last one. -/
def discoverIcon (t : XTree) (root : String) : Option Segs :=
  let candidate_icons : List Segs := if existsFollow t dirIconSegs then [dirIconSegs] else []
  let icon_glob := globThemedIcons t
  match candidate_icons with
  | c :: _ => resolveX t (followFuel t) c
  | [] =>
    match icon_glob with
    | [] => none
    | _ :: _ => (sortIcons root icon_glob).getLast?

/-- Index of the last occurrence of a dot in a character list
(`name.rfind(".")`, as used by `PurePath.stem` and `PurePath.suffix`). -/
def rfindDot : List Char → Option Nat
  | [] => none
  | c :: rest =>
    match rfindDot rest with
    | some i => some (i + 1)
    | none => if c = '.' then some 0 else none

/-- `PurePath.stem` on a file name: drop everything from the last dot on,
provided that dot is neither the first nor the last character. -/
def pyStem (name : String) : String :=
  let cs := name.data
  match rfindDot cs with
  | some i => if 0 < i ∧ i < cs.length - 1 then String.mk (cs.take i) else name
  | none => name

/-- `PurePath.suffix` on a file name: everything from the last dot on,
provided that dot is neither the first nor the last character. -/
def pySuffix (name : String) : String :=
  let cs := name.data
  match rfindDot cs with
  | some i => if 0 < i ∧ i < cs.length - 1 then String.mk (cs.drop i) else ""
  | none => ""

/-- Python `str.lower` (the script only meets ASCII names). -/
def pyLower (s : String) : String := String.mk (s.data.map Char.toLower)

/-- Python single-character `str.replace a b`. -/
def replaceChar (a b : Char) (s : String) : String :=
  String.mk (s.data.map fun c => if c = a then b else c)

/-- Python `str.title`: each alphabetic character that follows a
non-alphabetic one is upper-cased, every other alphabetic character is
lower-cased (digits and punctuation are not cased). -/
def pyTitleGo : List Char → Bool → List Char
  | [], _ => []
  | c :: rest, prevCased =>
    if c.isAlpha then
      (if prevCased then c.toLower else c.toUpper) :: pyTitleGo rest true
    else
      c :: pyTitleGo rest false

/-- Python `str.title` on a string. -/
def pyTitle (s : String) : String := String.mk (pyTitleGo s.data false)

/-- `Path.name`: the final path segment. -/
def lastSeg (p : Segs) : String := (p.getLast?).getD ""

section FSModel

variable {α : Type}

/-- Lookup in an association list keyed by paths. -/
def lookupKey : List (Segs × α) → Segs → Option α
  | [], _ => none
  | (q, v) :: rest, p => if q = p then some v else lookupKey rest p

/-- Remove every binding of key `p`. -/
def eraseKey : List (Segs × α) → Segs → List (Segs × α)
  | [], _ => []
  | (q, v) :: rest, p => if q = p then eraseKey rest p else (q, v) :: eraseKey rest p

/-- Bind key `p` to `v`, replacing any previous binding. -/
def insertKey (l : List (Segs × α)) (p : Segs) (v : α) : List (Segs × α) :=
  (p, v) :: eraseKey l p

end FSModel

/-- The filesystem outside the scratch extraction directory: regular files
with their contents, permission bits (defaulting to `0o644` for files never
`chmod`-ed in a run), and the set of directories present. -/
structure FS where
  files : List (Segs × String)
  modes : List (Segs × Nat)
  dirs : List Segs
deriving DecidableEq

/-- Content of the file at `p`, if one exists. -/
def FS.lookupFile (fs : FS) (p : Segs) : Option String := lookupKey fs.files p

/-- `Path.exists()` on a path of the main filesystem (no symbolic links are
modelled outside the scratch tree). -/
def FS.fileExists (fs : FS) (p : Segs) : Bool := (fs.lookupFile p).isSome

/-- Create or overwrite the file at `p` with content `c`
(an existing file keeps its permission bits; a fresh file gets the default). -/
def FS.insertFile (fs : FS) (p : Segs) (c : String) : FS :=
  { fs with files := insertKey fs.files p c }

/-- `mkdir(parents=True, exist_ok=True)`: record the directory. -/
def FS.mkdirs (fs : FS) (d : Segs) : FS :=
  { fs with dirs := if d ∈ fs.dirs then fs.dirs else d :: fs.dirs }

/-- `stat().st_mode` permission bits of the file at `p` (files never
`chmod`-ed in a run carry the usual default `0o644`). -/
def FS.getMode (fs : FS) (p : Segs) : Nat := (lookupKey fs.modes p).getD 0o644

/-- `chmod`: set the permission bits of the file at `p`. -/
def FS.setMode (fs : FS) (p : Segs) (m : Nat) : FS :=
  { fs with modes := insertKey fs.modes p m }

/-- `shutil.move(src, dst)` when it succeeds: the content and permission
bits leave `src` and appear at `dst` (an existing `dst` is overwritten). -/
def FS.moveFile (fs : FS) (src dst : Segs) : FS :=
  match fs.lookupFile src with
  | some c =>
    { fs with
      files := insertKey (eraseKey fs.files src) dst c
      modes := insertKey (eraseKey fs.modes src) dst (fs.getMode src) }
  | none => fs

/-- `os.path.samefile(a, b)` on canonical paths: raises `FileNotFoundError`
(the `Except.error` case) when either path does not exist, otherwise
compares the paths.  (Hard links are outside the model: distinct canonical
paths are distinct files.) -/
def samefile (fs : FS) (a b : Segs) : Except String Bool :=
  if fs.fileExists a = false then .error "FileNotFoundError"
  else if fs.fileExists b = false then .error "FileNotFoundError"
  else .ok (decide (a = b))

/-- Outcome of the `shutil.move` call of line 34, taken as an input of the
run (it depends on operating-system conditions outside the model): either
the move succeeds, or it raises `shutil.Error` (the only exception class
the script catches there). -/
inductive MoveOutcome where
  | success
  | shutilError
deriving DecidableEq

/-- External nondeterminism of one run. -/
structure Env where
  /-- Segments of the invoking user's home directory (`Path.home()`). -/
  home : Segs
  /-- What `shutil.move` does on this run. -/
  moveOutcome : MoveOutcome
  /-- Whether `<target> --appimage-extract` exits zero. -/
  extractOk : Bool
  /-- The `squashfs-root` tree the successful extraction produces. -/
  tree : XTree
  /-- Whether an exception is raised during candidate discovery or icon
  installation (steps 3–4 of the icon stage); the script catches it with
  the broad `except Exception` of line 111. -/
  iconStageRaises : Bool

/-- `~/Applications` (line 21). -/
def applicationsDir (env : Env) : Segs := env.home ++ ["Applications"]

/-- `~/Applications/.temp_extraction` (line 48). -/
def tempDirSegs (env : Env) : Segs := applicationsDir env ++ [".temp_extraction"]

/-- `~/Applications/.temp_extraction/squashfs-root` (line 64). -/
def extractedRootSegs (env : Env) : Segs := tempDirSegs env ++ ["squashfs-root"]

/-- `~/.local/share/icons` (line 100). -/
def userIconsDir (env : Env) : Segs := env.home ++ [".local", "share", "icons"]

/-- `~/.local/share/applications` (line 131). -/
def userApplicationsDir (env : Env) : Segs := env.home ++ [".local", "share", "applications"]

/-- The fallback icon identifier (lines 109 and 113). -/
def fallbackIconId : String := "application-x-executable"

/-- State of one run: the filesystem, the scratch extraction directory
(`none` when `.temp_extraction` is absent, `some t` when it is present and
its `squashfs-root` subdirectory holds `t`), and the lines printed so far. -/
structure RunState where
  fs : FS
  scratch : Option XTree
  out : List String

/-- How a run of `install_appimage` ends: a normal return (possibly an
early one), or an uncaught exception terminating the process abnormally. -/
inductive RunResult where
  | ok (st : RunState)
  | uncaught (msg : String) (st : RunState)

/-- The run state a result carries. -/
def resultState : RunResult → RunState
  | .ok st => st
  | .uncaught _ st => st

/-- Whether a run returned normally. -/
def isOkRun : RunResult → Bool
  | .ok _ => true
  | .uncaught _ _ => false

/-- The `try` body of lines 52–109: returns the filesystem, the scratch
tree, the lines printed inside the body, and either the computed
`icon_path_str` or the message of the exception that escaped the body.
`scratch0` is the scratch tree at the start of the body. -/
def iconTry (env : Env) (fs : FS) (scratch0 : XTree) (target : Segs) :
    FS × XTree × List String × Except String String :=
  let out0 := ["Extracting AppImage icon..."]
  if env.extractOk = false then
    -- line 56: `subprocess.run(..., check=True)` raises CalledProcessError
    (fs, scratch0, out0, .error "CalledProcessError")
  else
    let tree := env.tree
    if env.iconStageRaises then
      (fs, tree, out0, .error "exception during icon discovery or installation")
    else
      match discoverIcon tree (renderPath (extractedRootSegs env)) with
      | some iconRel =>
        -- lines 93–106
        let app_name_slug := replaceChar ' ' '_' (pyLower (pyStem (lastSeg target)))
        let icon_ext := pySuffix (lastSeg iconRel)
        let dest_icon_name := app_name_slug ++ "_appimage_icon" ++ icon_ext
        let fs1 := fs.mkdirs (userIconsDir env)
        let final_icon := userIconsDir env ++ [dest_icon_name]
        match readThrough tree iconRel with
        | some content =>
          let fs2 := fs1.insertFile final_icon content
          (fs2, tree, out0 ++ ["Icon installed to " ++ renderPath final_icon],
            .ok (renderPath final_icon))
        | none =>
          -- `shutil.copy` fails (e.g. the chosen glob match is a dangling link)
          (fs1, tree, out0, .error "copy failed")
      | none =>
        -- lines 107–109
        (fs, tree, out0 ++ ["Could not find icon in AppImage. Using default system icon."],
          .ok fallbackIconId)

/-- Lines 46–117: the whole icon-extraction stage, including the scratch
directory creation (line 49, `exist_ok=True`), the broad `except` of
line 111 and the `finally` cleanup of lines 114–117.  Returns the state
after the stage together with the final `icon_path_str`. -/
def iconStage (env : Env) (st : RunState) (target : Segs) : RunState × String :=
  let scratch0 : XTree := st.scratch.getD []
  let r := iconTry env st.fs scratch0 target
  let fs1 := r.1
  let scratch1 := r.2.1
  let bodyOut := r.2.2.1
  let afterExcept : List String × String :=
    match r.2.2.2 with
    | .ok s => (bodyOut, s)
    | .error e => (bodyOut ++ ["Error extracting icon: " ++ e], fallbackIconId)
  -- finally: the scratch directory exists here (it was created at the start
  -- of the stage), so `shutil.rmtree` removes it entirely
  let scratchF : Option XTree := if (some scratch1).isSome then none else some scratch1
  ({ fs := fs1, scratch := scratchF, out := st.out ++ afterExcept.1 }, afterExcept.2)

/-- The launcher-descriptor text of lines 121–128. -/
def desktopEntryContent (app_name exec_str icon_str : String) : String :=
  "[Desktop Entry]\nType=Application\nName=" ++ app_name ++ "\nExec=" ++ exec_str ++
    "\nIcon=" ++ icon_str ++ "\nCategories=Utility;\nTerminal=false\n"

/-- The derived human-readable application name of line 120:
`target_path.stem.replace("_", " ").title()`. -/
def appDisplayName (target : Segs) : String :=
  pyTitle (replaceChar '_' ' ' (pyStem (lastSeg target)))

/-- The absolute path of the launcher descriptor written for `target`
(lines 130–134). -/
def desktopFilePath (env : Env) (target : Segs) : Segs :=
  userApplicationsDir env ++ [pyStem (lastSeg target) ++ ".desktop"]

/-- Lines 119–143: build and write the launcher descriptor, then mark it
executable. -/
def desktopStage (env : Env) (st : RunState) (target : Segs) (icon_path_str : String) :
    RunState :=
  let content := desktopEntryContent (appDisplayName target) (renderPath target) icon_path_str
  let dpath := desktopFilePath env target
  let fs1 := st.fs.mkdirs (userApplicationsDir env)
  let fs2 := fs1.insertFile dpath content
  let fs3 := fs2.setMode dpath (fs2.getMode dpath ||| 0o111)
  { st with
    fs := fs3
    out := st.out ++
      ["Desktop entry created at " ++ renderPath dpath,
       "Installation Complete! You may need to log out and back in, or run update-desktop-database if available."] }

/-- Lines 42–143: everything after the move step succeeded (or was excused
as a same-file move): chmod the target, run the icon stage, write the
launcher descriptor. -/
def afterMove (env : Env) (st : RunState) (target : Segs) : RunState :=
  let fs1 := st.fs.setMode target (st.fs.getMode target ||| 0o111)
  let st1 : RunState := { st with fs := fs1, out := st.out ++ ["Made AppImage executable."] }
  let r := iconStage env st1 target
  desktopStage env r.1 target r.2

/-- The whole procedure `install_appimage` of lines 10–143.  `appimage_path`
is the already-resolved canonical path of the input (line 15). -/
def install_appimage (env : Env) (st : RunState) (appimage_path : Segs) : RunResult :=
  -- lines 16–18
  if st.fs.fileExists appimage_path = false then
    .ok { st with out := st.out ++ ["Error: File not found: " ++ renderPath appimage_path] }
  else
    -- lines 21–22
    let fs0 := st.fs.mkdirs (applicationsDir env)
    -- line 25
    let target := applicationsDir env ++ [lastSeg appimage_path]
    -- lines 26–27
    let warnOut : List String :=
      if fs0.fileExists target then
        ["Warning: " ++ renderPath target ++ " already exists. Overwriting..."]
      else []
    let st0 : RunState := { st with fs := fs0, out := st.out ++ warnOut }
    -- lines 33–40
    match env.moveOutcome with
    | .success =>
      let st1 : RunState :=
        { st0 with
          fs := st0.fs.moveFile appimage_path target
          out := st0.out ++ ["Moved AppImage to " ++ renderPath target] }
      .ok (afterMove env st1 target)
    | .shutilError =>
      match samefile st0.fs target appimage_path with
      | .error e =>
        -- line 38 itself raises; nothing catches it
        .uncaught e st0
      | .ok b =>
        if b = false then
          .ok { st0 with out := st0.out ++ ["Error moving file: shutil.Error"] }
        else
          .ok (afterMove env st0 target)

/-- The `icon_path_str` a run computes, as a function of the environment
and the target path alone (proved equal to the icon-stage result in
`iconStage_icon`). -/
def iconResultStr (env : Env) (target : Segs) : String :=
  if env.extractOk = false then fallbackIconId
  else if env.iconStageRaises then fallbackIconId
  else
    match discoverIcon env.tree (renderPath (extractedRootSegs env)) with
    | some iconRel =>
      match readThrough env.tree iconRel with
      | some _ =>
        renderPath (userIconsDir env ++
          [replaceChar ' ' '_' (pyLower (pyStem (lastSeg target))) ++ "_appimage_icon" ++
            pySuffix (lastSeg iconRel)])
      | none => fallbackIconId
    | none => fallbackIconId

/-- Test tree with themed icons at two resolution directories. -/
def treeT : XTree :=
  [(["usr","share","icons","hicolor","512x512","apps","myapp.png"], .regular "PNG512BYTES"),
   (["usr","share","icons","hicolor","128x128","apps","myapp.png"], .regular "PNG128BYTES")]

/-- Test filesystem holding one AppImage outside the managed directories. -/
def fsT : FS :=
  { files := [(["src","MyApp.AppImage"], "APPBYTES")],
    modes := [(["src","MyApp.AppImage"], 0o600)],
    dirs := [] }

/-- Test initial run state. -/
def stT : RunState := { fs := fsT, scratch := none, out := [] }

/-- Test input path. -/
def aT : Segs := ["src","MyApp.AppImage"]

/-- Test environment: move succeeds, extraction succeeds. -/
def envOkT : Env :=
  { home := ["home","u"], moveOutcome := .success, extractOk := true,
    tree := treeT, iconStageRaises := false }

/-- Test environment: move succeeds, extraction exits non-zero. -/
def envFailT : Env :=
  { home := ["home","u"], moveOutcome := .success, extractOk := false,
    tree := [], iconStageRaises := false }

/-- Test environment: `shutil.move` raises `shutil.Error`. -/
def envErrT : Env :=
  { home := ["home","u"], moveOutcome := .shutilError, extractOk := true,
    tree := treeT, iconStageRaises := false }

/-- Test input already sitting at its destination (reinstall in place). -/
def aInPlaceT : Segs := ["home","u","Applications","MyApp.AppImage"]

/-- Test run state for the reinstall-in-place scenario. -/
def stInPlaceT : RunState :=
  { fs := { files := [(aInPlaceT, "APPBYTES")], modes := [], dirs := [] },
    scratch := none, out := [] }

/-- The spec example tree: themed icons at the 512x512 and 128x128
resolution directories, no `.DirIcon`. -/
def treeC3 : XTree :=
  [(["usr","share","icons","hicolor","512x512","apps","myapp.png"], .regular "PNG512BYTES"),
   (["usr","share","icons","hicolor","128x128","apps","myapp.png"], .regular "PNG128BYTES")]

/-- Environment of the spec example run. -/
def envC3 : Env :=
  { home := ["home","user"], moveOutcome := .success, extractOk := true,
    tree := treeC3, iconStageRaises := false }

/-- Initial state of the spec example run: the package
`MyApp-1.2.3.AppImage` sits in a downloads directory. -/
def stC3 : RunState :=
  { fs := { files := [(["downloads","MyApp-1.2.3.AppImage"], "APPIMAGEBYTES")],
            modes := [], dirs := [] },
    scratch := none, out := [] }

/-- Input path of the spec example run. -/
def aC3 : Segs := ["downloads","MyApp-1.2.3.AppImage"]

/-- The spec example run. -/
def runC3 : RunResult := install_appimage envC3 stC3 aC3

theorem charsLe_refl (l : List Char) : charsLe l l = true := by
  induction l with
  | nil => rfl
  | cons a as ih => simp [charsLe, ih]

theorem charsLe_total (l m : List Char) : charsLe l m = true ∨ charsLe m l = true := by
  induction l generalizing m with
  | nil => left; rfl
  | cons a as ih =>
    cases m with
    | nil => right; rfl
    | cons b bs =>
      by_cases hab : a.toNat < b.toNat
      · left; simp [charsLe, hab]
      · by_cases hba : b.toNat < a.toNat
        · right; simp [charsLe, hba]
        · rcases ih bs with h | h
          · left; simp [charsLe, hab, hba, h]
          · right; simp [charsLe, hab, hba, h]

theorem charsLe_trans (l m n : List Char) (h1 : charsLe l m = true)
    (h2 : charsLe m n = true) : charsLe l n = true := by
  induction l generalizing m n with
  | nil => rfl
  | cons a as ih =>
    cases m with
    | nil => simp [charsLe] at h1
    | cons b bs =>
      cases n with
      | nil => simp [charsLe] at h2
      | cons c cs =>
        simp only [charsLe] at h1 h2 ⊢
        by_cases hab : a.toNat < b.toNat
        · by_cases hbc : b.toNat < c.toNat
          · simp [show a.toNat < c.toNat by omega]
          · by_cases hcb : c.toNat < b.toNat
            · simp [hbc, hcb] at h2
            · simp [show a.toNat < c.toNat by omega]
        · by_cases hba : b.toNat < a.toNat
          · simp [hab, hba] at h1
          · have hab' : a.toNat = b.toNat := by omega
            by_cases hbc : b.toNat < c.toNat
            · simp [show a.toNat < c.toNat by omega]
            · by_cases hcb : c.toNat < b.toNat
              · simp [hbc, hcb] at h2
              · simp only [hab, hba, if_neg, ite_false] at h1
                simp only [hbc, hcb, if_neg, ite_false] at h2
                simp [show ¬ a.toNat < c.toNat by omega,
                      show ¬ c.toNat < a.toNat by omega, ih bs cs h1 h2]

section FSModelFacts

variable {α : Type}

theorem lookupKey_eraseKey_ne (l : List (Segs × α)) (p q : Segs) (h : p ≠ q) :
    lookupKey (eraseKey l p) q = lookupKey l q := by
  induction l with
  | nil => rfl
  | cons hd tl ih =>
    obtain ⟨r, v⟩ := hd
    by_cases hr : r = p
    · subst hr
      simp [eraseKey, lookupKey, h, ih]
    · by_cases hq : r = q
      · subst hq
        simp [eraseKey, lookupKey, hr]
      · simp [eraseKey, lookupKey, hr, hq, ih]

theorem lookupKey_eraseKey_self (l : List (Segs × α)) (p : Segs) :
    lookupKey (eraseKey l p) p = none := by
  induction l with
  | nil => rfl
  | cons hd tl ih =>
    obtain ⟨r, v⟩ := hd
    by_cases hr : r = p
    · simp [eraseKey, hr, ih]
    · simp [eraseKey, lookupKey, hr, ih]

theorem lookupKey_insertKey_self (l : List (Segs × α)) (p : Segs) (v : α) :
    lookupKey (insertKey l p v) p = some v := by
  simp [insertKey, lookupKey]

theorem lookupKey_insertKey_ne (l : List (Segs × α)) (p q : Segs) (v : α) (h : p ≠ q) :
    lookupKey (insertKey l p v) q = lookupKey l q := by
  simp [insertKey, lookupKey, h, lookupKey_eraseKey_ne]

end FSModelFacts

section SortFacts

instance (root : String) : IsTotal Segs (pathLe root) :=
  ⟨fun a b => by
    unfold pathLe strLe
    rcases charsLe_total (fullPathStr root a).data (fullPathStr root b).data with h | h
    · exact Or.inl h
    · exact Or.inr h⟩

instance (root : String) : IsTrans Segs (pathLe root) :=
  ⟨fun _ _ _ h1 h2 => charsLe_trans _ _ _ h1 h2⟩

theorem pathLe_refl (root : String) (a : Segs) : pathLe root a a :=
  charsLe_refl _

/-- In a `Pairwise r` list with reflexive `r`, the last element is related
from every element. -/
theorem pairwise_getLast_ge {r : Segs → Segs → Prop} (hrefl : ∀ a, r a a) :
    ∀ (l : List Segs) (q : Segs), l.Pairwise r → l.getLast? = some q →
      ∀ x ∈ l, r x q := by
  intro l
  induction l with
  | nil => intro q _ hq; simp at hq
  | cons a tl ih =>
    intro q hp hq x hx
    cases tl with
    | nil =>
      simp at hq hx
      subst hq; subst hx; exact hrefl _
    | cons b tl' =>
      rw [List.getLast?_cons_cons] at hq
      have hpairtail : (b :: tl').Pairwise r := (List.pairwise_cons.mp hp).2
      have hhead : ∀ y ∈ b :: tl', r a y := (List.pairwise_cons.mp hp).1
      rcases List.mem_cons.mp hx with hxa | hxtl
      · subst hxa
        exact hhead q (List.mem_of_mem_getLast? hq)
      · exact ih q hpairtail hq x hxtl

/-- The last element of the sorted candidate list is a member of the
candidates and bounds all of them in the path order. -/
theorem sortIcons_getLast_max (root : String) (l : List Segs) (hl : l ≠ []) :
    ∃ q, (sortIcons root l).getLast? = some q ∧ q ∈ l ∧
      ∀ p ∈ l, pathLe root p q := by
  have hperm : (sortIcons root l).Perm l := List.perm_insertionSort (pathLe root) l
  have hsorted : (sortIcons root l).Pairwise (pathLe root) :=
    List.sorted_insertionSort (pathLe root) l
  have hne : sortIcons root l ≠ [] := by
    intro h
    apply hl
    have hlen := hperm.length_eq
    rw [h] at hlen
    exact List.length_eq_zero.mp hlen.symm
  obtain ⟨q, hq⟩ := Option.isSome_iff_exists.mp (List.getLast?_isSome.mpr hne)
  refine ⟨q, hq, hperm.mem_iff.mp (List.mem_of_mem_getLast? hq), ?_⟩
  intro p hp
  exact pairwise_getLast_ge (pathLe_refl root) _ q hsorted hq p (hperm.mem_iff.mpr hp)

end SortFacts

/-- C1: when there is no default-icon indirection and the tree holds themed
icon images (raster or vector) at the themed-icon directory pattern, the
chosen candidate is one of the matches and its full path string is
lexicographically last among all matches. -/
theorem themed_choice_is_lex_last (t : XTree) (root : String)
    (hno : existsFollow t dirIconSegs = false)
    (hglob : globThemedIcons t ≠ []) :
    ∃ q, discoverIcon t root = some q ∧ q ∈ globThemedIcons t ∧
      ∀ p ∈ globThemedIcons t,
        strLe (fullPathStr root p) (fullPathStr root q) = true := by
  obtain ⟨q, hq, hmem, hmax⟩ := sortIcons_getLast_max root (globThemedIcons t) hglob
  refine ⟨q, ?_, hmem, hmax⟩
  unfold discoverIcon
  simp only [hno, Bool.false_eq_true, if_false]
  cases hg : globThemedIcons t with
  | nil => exact absurd hg hglob
  | cons x xs => simpa [hg] using hq

/-- C1 witness: a tree with icons at two resolution directories and no
indirection; the 512x512 variant is chosen. -/
theorem themed_choice_is_lex_last_witness :
    (existsFollow
        [((["usr","share","icons","hicolor","128x128","apps","a.png"] : Segs), XEntry.regular "A"),
         ((["usr","share","icons","hicolor","512x512","apps","a.png"] : Segs), XEntry.regular "B")]
        dirIconSegs = false) ∧
    (globThemedIcons
        [((["usr","share","icons","hicolor","128x128","apps","a.png"] : Segs), XEntry.regular "A"),
         ((["usr","share","icons","hicolor","512x512","apps","a.png"] : Segs), XEntry.regular "B")] ≠ []) ∧
    ∃ q, discoverIcon
        [((["usr","share","icons","hicolor","128x128","apps","a.png"] : Segs), XEntry.regular "A"),
         ((["usr","share","icons","hicolor","512x512","apps","a.png"] : Segs), XEntry.regular "B")]
        "/root" = some q ∧
      q ∈ globThemedIcons
        [((["usr","share","icons","hicolor","128x128","apps","a.png"] : Segs), XEntry.regular "A"),
         ((["usr","share","icons","hicolor","512x512","apps","a.png"] : Segs), XEntry.regular "B")] ∧
      ∀ p ∈ globThemedIcons
        [((["usr","share","icons","hicolor","128x128","apps","a.png"] : Segs), XEntry.regular "A"),
         ((["usr","share","icons","hicolor","512x512","apps","a.png"] : Segs), XEntry.regular "B")],
        strLe (fullPathStr "/root" p) (fullPathStr "/root" q) = true :=
  ⟨by decide, by decide,
    themed_choice_is_lex_last _ "/root" (by decide) (by decide)⟩

/-- C2: when the default-icon indirection file is present directly under
the extraction root as a directory entry but its resolved real target does
not exist (a dangling symbolic link), and themed icon images matching the
pattern are present, the themed-icon search is performed and one of those
images is chosen — the run does not fall back to the fallback identifier.
(The short-circuit can only trigger when the resolved target exists,
because the existence test of line 68 follows symbolic links.) -/
theorem broken_dirIcon_still_searches_themed (t : XTree) (root : String)
    (e : XEntry) (_hentry : lookupX t dirIconSegs = some e)
    (hbroken : resolveX t (followFuel t) dirIconSegs = none)
    (hglob : globThemedIcons t ≠ []) :
    ∃ q, discoverIcon t root = some q ∧ q ∈ globThemedIcons t := by
  have hno : existsFollow t dirIconSegs = false := by
    unfold existsFollow
    simp [hbroken]
  obtain ⟨q, hq, hmem, _⟩ := themed_choice_is_lex_last t root hno hglob
  exact ⟨q, hq, hmem⟩

/-- C2 witness: `.DirIcon` is a dangling symbolic link; the themed icon is
still found. -/
theorem broken_dirIcon_still_searches_themed_witness :
    (lookupX
        [((dirIconSegs : Segs), XEntry.symlink ["missing","target"]),
         ((["usr","share","icons","hicolor","256x256","apps","b.svg"] : Segs), XEntry.regular "S")]
        dirIconSegs = some (XEntry.symlink ["missing","target"])) ∧
    (resolveX
        [((dirIconSegs : Segs), XEntry.symlink ["missing","target"]),
         ((["usr","share","icons","hicolor","256x256","apps","b.svg"] : Segs), XEntry.regular "S")]
        (followFuel
          [((dirIconSegs : Segs), XEntry.symlink ["missing","target"]),
           ((["usr","share","icons","hicolor","256x256","apps","b.svg"] : Segs), XEntry.regular "S")])
        dirIconSegs = none) ∧
    ∃ q, discoverIcon
        [((dirIconSegs : Segs), XEntry.symlink ["missing","target"]),
         ((["usr","share","icons","hicolor","256x256","apps","b.svg"] : Segs), XEntry.regular "S")]
        "/root" = some q ∧
      q ∈ globThemedIcons
        [((dirIconSegs : Segs), XEntry.symlink ["missing","target"]),
         ((["usr","share","icons","hicolor","256x256","apps","b.svg"] : Segs), XEntry.regular "S")] :=
  ⟨by decide, by decide,
    broken_dirIcon_still_searches_themed _ "/root" (XEntry.symlink ["missing","target"])
      (by decide) (by decide) (by decide)⟩

/-- C9: when the resolved input path refers to no existing file, the run
only prints the failure message and returns: the filesystem, the scratch
state and everything else are untouched. -/
theorem missing_input_no_side_effects (env : Env) (st : RunState) (a : Segs)
    (h : st.fs.fileExists a = false) :
    install_appimage env st a =
      .ok { st with out := st.out ++ ["Error: File not found: " ++ renderPath a] } := by
  unfold install_appimage
  rw [h]
  rfl

/-- C9 witness: a run on a missing path leaves the (empty) filesystem as it
was. -/
theorem missing_input_no_side_effects_witness :
    ((⟨{ files := [], modes := [], dirs := [] }, none, []⟩ : RunState).fs.fileExists
        ["nowhere","app.AppImage"] = false) ∧
    install_appimage
        ⟨["home","u"], .success, true, [], false⟩
        ⟨{ files := [], modes := [], dirs := [] }, none, []⟩
        ["nowhere","app.AppImage"] =
      .ok ⟨{ files := [], modes := [], dirs := [] }, none,
        ["Error: File not found: " ++ renderPath ["nowhere","app.AppImage"]]⟩ :=
  ⟨by decide,
    missing_input_no_side_effects
      ⟨["home","u"], .success, true, [], false⟩
      ⟨{ files := [], modes := [], dirs := [] }, none, []⟩
      ["nowhere","app.AppImage"] (by decide)⟩

/-- C10: when `shutil.move` raises `shutil.Error` while the destination
path does not exist, the `except` branch itself raises an uncaught
`FileNotFoundError` (line 38 calls `samefile` on the nonexistent
destination), so the run terminates abnormally — no relocation-error
message is printed and no normal return happens. -/
theorem move_error_missing_target_crashes (env : Env) (st : RunState) (a : Segs)
    (h1 : st.fs.fileExists a = true)
    (hm : env.moveOutcome = .shutilError)
    (h2 : st.fs.fileExists (applicationsDir env ++ [lastSeg a]) = false) :
    install_appimage env st a =
      .uncaught "FileNotFoundError" { st with fs := st.fs.mkdirs (applicationsDir env) } := by
  unfold install_appimage
  rw [h1]
  have hfs0 : (st.fs.mkdirs (applicationsDir env)).fileExists
      (applicationsDir env ++ [lastSeg a]) = false := h2
  simp only [Bool.true_eq_false, if_false, hfs0, hm]
  unfold samefile
  rw [hfs0]
  simp

theorem iconStage_icon (env : Env) (st : RunState) (t : Segs) :
    (iconStage env st t).2 = iconResultStr env t := by
  unfold iconStage iconTry iconResultStr
  by_cases he : env.extractOk = false
  · simp [he]
  · by_cases hr : env.iconStageRaises
    · simp [he, hr]
    · cases hd : discoverIcon env.tree (renderPath (extractedRootSegs env)) with
      | none => simp [he, hr, hd]
      | some rel =>
        cases hc : readThrough env.tree rel with
        | none => simp [he, hr, hd, hc]
        | some c => simp [he, hr, hd, hc]

theorem iconStage_scratch (env : Env) (st : RunState) (t : Segs) :
    (iconStage env st t).1.scratch = none := rfl

theorem iconTry_modes (env : Env) (fs : FS) (scratch0 : XTree) (t : Segs) :
    (iconTry env fs scratch0 t).1.modes = fs.modes := by
  unfold iconTry
  by_cases he : env.extractOk = false
  · simp [he]
  · by_cases hr : env.iconStageRaises
    · simp [he, hr]
    · cases hd : discoverIcon env.tree (renderPath (extractedRootSegs env)) with
      | none => simp [he, hr, hd]
      | some rel =>
        cases hc : readThrough env.tree rel with
        | none => simp [he, hr, hd, hc, FS.mkdirs]
        | some c => simp [he, hr, hd, hc, FS.mkdirs, FS.insertFile]

theorem iconTry_lookup_ne (env : Env) (fs : FS) (scratch0 : XTree) (t : Segs)
    (p : Segs) (h : ∀ s, p ≠ userIconsDir env ++ [s]) :
    (iconTry env fs scratch0 t).1.lookupFile p = fs.lookupFile p := by
  unfold iconTry
  by_cases he : env.extractOk = false
  · simp [he]
  · by_cases hr : env.iconStageRaises
    · simp [he, hr]
    · cases hd : discoverIcon env.tree (renderPath (extractedRootSegs env)) with
      | none => simp [he, hr, hd]
      | some rel =>
        cases hc : readThrough env.tree rel with
        | none => simp [he, hr, hd, hc, FS.mkdirs, FS.lookupFile]
        | some c =>
          simp only [he, hr, hd, hc, Bool.false_eq_true, if_false, ite_false]
          simp only [FS.lookupFile, FS.insertFile, FS.mkdirs]
          exact lookupKey_insertKey_ne _ _ _ _ fun hh => (h _) hh.symm

theorem iconStage_lookup_ne (env : Env) (st : RunState) (t : Segs)
    (p : Segs) (h : ∀ s, p ≠ userIconsDir env ++ [s]) :
    (iconStage env st t).1.fs.lookupFile p = st.fs.lookupFile p :=
  iconTry_lookup_ne env st.fs _ t p h

theorem iconStage_modes (env : Env) (st : RunState) (t : Segs) :
    (iconStage env st t).1.fs.modes = st.fs.modes :=
  iconTry_modes env st.fs _ t

theorem desktopStage_scratch (env : Env) (st : RunState) (t : Segs) (icon : String) :
    (desktopStage env st t icon).scratch = st.scratch := rfl

theorem desktopStage_lookup (env : Env) (st : RunState) (t : Segs) (icon : String) :
    (desktopStage env st t icon).fs.lookupFile (desktopFilePath env t) =
      some (desktopEntryContent (appDisplayName t) (renderPath t) icon) := by
  unfold desktopStage
  simp [FS.lookupFile, FS.setMode, FS.insertFile, FS.mkdirs, lookupKey_insertKey_self]

theorem desktopStage_lookup_ne (env : Env) (st : RunState) (t : Segs) (icon : String)
    (p : Segs) (h : p ≠ desktopFilePath env t) :
    (desktopStage env st t icon).fs.lookupFile p = st.fs.lookupFile p := by
  unfold desktopStage
  simp only [FS.lookupFile, FS.setMode, FS.insertFile, FS.mkdirs]
  exact lookupKey_insertKey_ne _ _ _ _ fun hh => h hh.symm

theorem desktopStage_mode_ne (env : Env) (st : RunState) (t : Segs) (icon : String)
    (p : Segs) (h : p ≠ desktopFilePath env t) :
    (desktopStage env st t icon).fs.getMode p = st.fs.getMode p := by
  unfold desktopStage
  simp only [FS.getMode, FS.setMode, FS.insertFile, FS.mkdirs]
  rw [lookupKey_insertKey_ne _ _ _ _ fun hh => h hh.symm]

theorem afterMove_scratch (env : Env) (st : RunState) (t : Segs) :
    (afterMove env st t).scratch = none := by
  simp only [afterMove]
  rw [desktopStage_scratch, iconStage_scratch]

theorem afterMove_desktop_lookup (env : Env) (st : RunState) (t : Segs) :
    (afterMove env st t).fs.lookupFile (desktopFilePath env t) =
      some (desktopEntryContent (appDisplayName t) (renderPath t) (iconResultStr env t)) := by
  simp only [afterMove]
  rw [desktopStage_lookup, iconStage_icon]

theorem afterMove_lookup_ne (env : Env) (st : RunState) (t : Segs) (p : Segs)
    (hIcons : ∀ s, p ≠ userIconsDir env ++ [s])
    (hDesk : p ≠ desktopFilePath env t) :
    (afterMove env st t).fs.lookupFile p = st.fs.lookupFile p := by
  simp only [afterMove]
  rw [desktopStage_lookup_ne _ _ _ _ _ hDesk]
  rw [iconStage_lookup_ne _ _ _ _ hIcons]
  rfl

theorem afterMove_mode_target (env : Env) (st : RunState) (t : Segs)
    (hDesk : t ≠ desktopFilePath env t) :
    (afterMove env st t).fs.getMode t = st.fs.getMode t ||| 0o111 := by
  simp only [afterMove]
  rw [desktopStage_mode_ne _ _ _ _ _ hDesk]
  unfold FS.getMode
  rw [iconStage_modes]
  simp [FS.setMode, FS.getMode, lookupKey_insertKey_self, insertKey, lookupKey]

/-- Shape of a run whose move step succeeds. -/
theorem install_success_shape (env : Env) (st : RunState) (a : Segs)
    (h1 : st.fs.fileExists a = true) (hm : env.moveOutcome = .success) :
    ∃ preOut,
      install_appimage env st a =
        .ok (afterMove env
          { fs := (st.fs.mkdirs (applicationsDir env)).moveFile a
              (applicationsDir env ++ [lastSeg a]),
            scratch := st.scratch,
            out := preOut }
          (applicationsDir env ++ [lastSeg a])) := by
  unfold install_appimage
  rw [h1, hm]
  exact ⟨_, rfl⟩

/-- Shape of a run whose move step raises `shutil.Error` while source and
destination are the same path. -/
theorem install_samefile_shape (env : Env) (st : RunState) (a : Segs)
    (h1 : st.fs.fileExists a = true)
    (hm : env.moveOutcome = .shutilError)
    (hsame : a = applicationsDir env ++ [lastSeg a]) :
    ∃ preOut,
      install_appimage env st a =
        .ok (afterMove env
          { fs := st.fs.mkdirs (applicationsDir env), scratch := st.scratch, out := preOut }
          (applicationsDir env ++ [lastSeg a])) := by
  have hex : (st.fs.mkdirs (applicationsDir env)).fileExists a = true := h1
  unfold install_appimage samefile
  rw [h1, hm, ← hsame]
  simp only [hex, Bool.true_eq_false, if_false, ite_false, decide_True, if_true, ite_true,
    reduceIte]
  exact ⟨_, rfl⟩

theorem ne_of_append_length (home : Segs) (l1 l2 : List String)
    (h : l1.length ≠ l2.length) : home ++ l1 ≠ home ++ l2 := by
  intro he
  exact h (congrArg List.length (List.append_cancel_left he))

theorem target_ne_iconPath (env : Env) (x s : String) :
    applicationsDir env ++ [x] ≠ userIconsDir env ++ [s] := by
  unfold applicationsDir userIconsDir
  rw [List.append_assoc, List.append_assoc]
  exact ne_of_append_length _ _ _ (by simp)

theorem target_ne_appsPath (env : Env) (x y : String) :
    applicationsDir env ++ [x] ≠ userApplicationsDir env ++ [y] := by
  unfold applicationsDir userApplicationsDir
  rw [List.append_assoc, List.append_assoc]
  exact ne_of_append_length _ _ _ (by simp)

theorem desktopFilePath_eq (env : Env) (t : Segs) :
    desktopFilePath env t = userApplicationsDir env ++ [pyStem (lastSeg t) ++ ".desktop"] := rfl

theorem lastSeg_concat (l : Segs) (x : String) : lastSeg (l ++ [x]) = x := by
  unfold lastSeg
  rw [List.getLast?_concat]
  rfl

theorem lor_and_right (m e : Nat) : (m ||| e) &&& e = e := by
  apply Nat.eq_of_testBit_eq
  intro i
  rw [Nat.testBit_land, Nat.testBit_lor]
  cases hm : m.testBit i <;> cases he : e.testBit i <;> rfl

theorem lor_and_left (m e : Nat) : (m ||| e) &&& m = m := by
  apply Nat.eq_of_testBit_eq
  intro i
  rw [Nat.testBit_land, Nat.testBit_lor]
  cases hm : m.testBit i <;> cases he : e.testBit i <;> rfl

theorem afterMove_icon_error_out (env : Env) (st : RunState) (t : Segs)
    (hfail : env.extractOk = false ∨ env.iconStageRaises = true) :
    ∃ e, ("Error extracting icon: " ++ e) ∈ (afterMove env st t).out := by
  by_cases he : env.extractOk = false
  · exact ⟨"CalledProcessError",
      by simp [afterMove, desktopStage, iconStage, iconTry, he]⟩
  · have hr : env.iconStageRaises = true := by
      rcases hfail with hf | hf
      · exact absurd hf he
      · exact hf
    exact ⟨"exception during icon discovery or installation",
      by simp [afterMove, desktopStage, iconStage, iconTry, he, hr]⟩

/-- C4: whenever the run reaches the icon stage and the self-extraction
exits non-zero or an exception is raised during discovery or icon
installation, the icon reference is downgraded to the fallback identifier,
a warning is printed, and the launcher descriptor is still written —
icon-stage failure never aborts the pipeline. -/
theorem icon_failure_never_aborts (env : Env) (st : RunState) (a : Segs)
    (h1 : st.fs.fileExists a = true)
    (hm : env.moveOutcome = .success)
    (hfail : env.extractOk = false ∨ env.iconStageRaises = true) :
    ∃ st', install_appimage env st a = .ok st' ∧
      st'.fs.lookupFile (desktopFilePath env (applicationsDir env ++ [lastSeg a])) =
        some (desktopEntryContent (appDisplayName (applicationsDir env ++ [lastSeg a]))
          (renderPath (applicationsDir env ++ [lastSeg a])) fallbackIconId) ∧
      (∃ e, ("Error extracting icon: " ++ e) ∈ st'.out) := by
  obtain ⟨preOut, hrun⟩ := install_success_shape env st a h1 hm
  refine ⟨_, hrun, ?_, afterMove_icon_error_out env _ _ hfail⟩
  rw [afterMove_desktop_lookup]
  have hic : iconResultStr env (applicationsDir env ++ [lastSeg a]) = fallbackIconId := by
    unfold iconResultStr
    rcases hfail with hf | hf
    · simp [hf]
    · simp [hf]
  rw [hic]

/-- C5: on every path that reaches the icon-extraction stage — move
succeeded, or the move raised `shutil.Error` on a same-file reinstall —
the run returns normally with the scratch extraction directory deleted,
whatever the icon-stage outcome and whatever scratch state the run began
with. -/
theorem scratch_removed_on_every_path (env : Env) (st : RunState) (a : Segs)
    (h1 : st.fs.fileExists a = true)
    (hreach : env.moveOutcome = .success ∨
      (env.moveOutcome = .shutilError ∧ a = applicationsDir env ++ [lastSeg a])) :
    ∃ st', install_appimage env st a = .ok st' ∧ st'.scratch = none := by
  rcases hreach with hm | ⟨hm, hsame⟩
  · obtain ⟨preOut, hrun⟩ := install_success_shape env st a h1 hm
    exact ⟨_, hrun, afterMove_scratch _ _ _⟩
  · obtain ⟨preOut, hrun⟩ := install_samefile_shape env st a h1 hm hsame
    exact ⟨_, hrun, afterMove_scratch _ _ _⟩

/-- C6: when the input file exists and its relocation succeeds, after the
run the file is gone from its original location, a file with the same base
name sits in the per-user application directory with the original content,
and its permission bits are the original ones with owner/group/other
execute added (pre-existing bits preserved).  The input is assumed to lie
outside the managed icon and launcher directories. -/
theorem relocation_leaves_executable_target (env : Env) (st : RunState) (a : Segs)
    (c : String)
    (hc : st.fs.lookupFile a = some c)
    (hm : env.moveOutcome = .success)
    (hne : a ≠ applicationsDir env ++ [lastSeg a])
    (hIcons : ∀ s, a ≠ userIconsDir env ++ [s])
    (hApps : ∀ s, a ≠ userApplicationsDir env ++ [s]) :
    ∃ st', install_appimage env st a = .ok st' ∧
      st'.fs.fileExists a = false ∧
      st'.fs.lookupFile (applicationsDir env ++ [lastSeg a]) = some c ∧
      st'.fs.getMode (applicationsDir env ++ [lastSeg a]) = st.fs.getMode a ||| 0o111 ∧
      st'.fs.getMode (applicationsDir env ++ [lastSeg a]) &&& 0o111 = 0o111 ∧
      st'.fs.getMode (applicationsDir env ++ [lastSeg a]) &&& st.fs.getMode a
        = st.fs.getMode a := by
  have h1 : st.fs.fileExists a = true := by
    unfold FS.fileExists
    rw [hc]
    rfl
  obtain ⟨preOut, hrun⟩ := install_success_shape env st a h1 hm
  set target := applicationsDir env ++ [lastSeg a] with htarget
  have hmoved : ((st.fs.mkdirs (applicationsDir env)).moveFile a target) =
      { st.fs.mkdirs (applicationsDir env) with
        files := insertKey (eraseKey (st.fs.mkdirs (applicationsDir env)).files a) target c
        modes := insertKey (eraseKey (st.fs.mkdirs (applicationsDir env)).modes a) target
          ((st.fs.mkdirs (applicationsDir env)).getMode a) } := by
    unfold FS.moveFile
    have : (st.fs.mkdirs (applicationsDir env)).lookupFile a = some c := hc
    rw [this]
  have hDesk : a ≠ desktopFilePath env target := by
    rw [desktopFilePath_eq]
    exact hApps _
  have hDeskT : target ≠ desktopFilePath env target := by
    rw [desktopFilePath_eq, htarget]
    exact target_ne_appsPath env _ _
  have hIconsT : ∀ s, target ≠ userIconsDir env ++ [s] := by
    intro s
    rw [htarget]
    exact target_ne_iconPath env _ s
  refine ⟨_, hrun, ?_, ?_, ?_, ?_, ?_⟩
  · -- the source file is gone
    unfold FS.fileExists
    rw [afterMove_lookup_ne _ _ _ _ hIcons hDesk]
    show (((st.fs.mkdirs (applicationsDir env)).moveFile a target).lookupFile a).isSome = false
    rw [hmoved]
    show (lookupKey (insertKey (eraseKey (st.fs.mkdirs (applicationsDir env)).files a) target c) a).isSome = false
    rw [lookupKey_insertKey_ne _ _ _ _ fun hh => hne hh.symm]
    rw [lookupKey_eraseKey_self]
    rfl
  · -- the target holds the original content
    rw [afterMove_lookup_ne _ _ _ _ hIconsT hDeskT]
    show ((st.fs.mkdirs (applicationsDir env)).moveFile a target).lookupFile target = some c
    rw [hmoved]
    exact lookupKey_insertKey_self _ _ _
  · -- the target's permission bits
    rw [afterMove_mode_target _ _ _ hDeskT]
    show ((st.fs.mkdirs (applicationsDir env)).moveFile a target).getMode target ||| 0o111
      = st.fs.getMode a ||| 0o111
    rw [hmoved]
    show (lookupKey (insertKey (eraseKey (st.fs.mkdirs (applicationsDir env)).modes a) target
      ((st.fs.mkdirs (applicationsDir env)).getMode a)) target).getD 0o644 ||| 0o111
      = st.fs.getMode a ||| 0o111
    rw [lookupKey_insertKey_self]
    rfl
  · -- execute bits are set
    rw [afterMove_mode_target _ _ _ hDeskT]
    exact lor_and_right _ _
  · -- pre-existing bits are preserved
    rw [afterMove_mode_target _ _ _ hDeskT]
    have : ((st.fs.mkdirs (applicationsDir env)).moveFile a target).getMode target
        = st.fs.getMode a := by
      rw [hmoved]
      show (lookupKey (insertKey (eraseKey (st.fs.mkdirs (applicationsDir env)).modes a) target
        ((st.fs.mkdirs (applicationsDir env)).getMode a)) target).getD 0o644
        = st.fs.getMode a
      rw [lookupKey_insertKey_self]
      rfl
    rw [this]
    exact lor_and_left _ _

/-- C7: when `shutil.move` raises `shutil.Error` but source and destination
are the same file, the failure is excused: the run returns normally, the
icon stage runs (and cleans its scratch directory), and the launcher
descriptor is written. -/
theorem samefile_error_treated_as_success (env : Env) (st : RunState) (a : Segs)
    (h1 : st.fs.fileExists a = true)
    (hm : env.moveOutcome = .shutilError)
    (hsame : a = applicationsDir env ++ [lastSeg a]) :
    ∃ st', install_appimage env st a = .ok st' ∧
      st'.fs.lookupFile (desktopFilePath env (applicationsDir env ++ [lastSeg a])) =
        some (desktopEntryContent (appDisplayName (applicationsDir env ++ [lastSeg a]))
          (renderPath (applicationsDir env ++ [lastSeg a]))
          (iconResultStr env (applicationsDir env ++ [lastSeg a]))) ∧
      st'.scratch = none := by
  obtain ⟨preOut, hrun⟩ := install_samefile_shape env st a h1 hm hsame
  exact ⟨_, hrun, afterMove_desktop_lookup _ _ _, afterMove_scratch _ _ _⟩

theorem iconResultStr_congr (env1 env2 : Env) (t : Segs)
    (hh : env2.home = env1.home)
    (ht : env2.tree = env1.tree)
    (he : env2.extractOk = env1.extractOk)
    (hr : env2.iconStageRaises = env1.iconStageRaises) :
    iconResultStr env2 t = iconResultStr env1 t := by
  unfold iconResultStr extractedRootSegs tempDirSegs applicationsDir userIconsDir
  rw [hh, ht, he, hr]

/-- C8: a successful run followed by a re-run on the installed package
(same destination name; the second move raises `shutil.Error` on the
same-file reinstall) leaves the launcher descriptor with exactly the
content a single run gives: the second run overwrites it with identical
content, never duplicating or corrupting it. -/
theorem second_run_overwrites_descriptor (env1 env2 : Env) (st : RunState) (a : Segs)
    (h1 : st.fs.fileExists a = true)
    (hm1 : env1.moveOutcome = .success)
    (hm2 : env2.moveOutcome = .shutilError)
    (hh : env2.home = env1.home)
    (ht : env2.tree = env1.tree)
    (he : env2.extractOk = env1.extractOk)
    (hr : env2.iconStageRaises = env1.iconStageRaises) :
    ∃ s1 s2,
      install_appimage env1 st a = .ok s1 ∧
      install_appimage env2 s1 (applicationsDir env1 ++ [lastSeg a]) = .ok s2 ∧
      s2.fs.lookupFile (desktopFilePath env1 (applicationsDir env1 ++ [lastSeg a])) =
        s1.fs.lookupFile (desktopFilePath env1 (applicationsDir env1 ++ [lastSeg a])) := by
  obtain ⟨preOut1, hrun1⟩ := install_success_shape env1 st a h1 hm1
  set target := applicationsDir env1 ++ [lastSeg a] with htarget
  set s1 := afterMove env1
    { fs := (st.fs.mkdirs (applicationsDir env1)).moveFile a target,
      scratch := st.scratch, out := preOut1 } target with hs1
  have happ : applicationsDir env2 = applicationsDir env1 := by
    unfold applicationsDir
    rw [hh]
  have hlast : lastSeg target = lastSeg a := by
    rw [htarget]
    exact lastSeg_concat _ _
  -- the installed package exists at the destination after the first run
  have hcontent : ∃ c, s1.fs.lookupFile target = some c := by
    have hDeskT : target ≠ desktopFilePath env1 target := by
      rw [desktopFilePath_eq, htarget]
      exact target_ne_appsPath env1 _ _
    have hIconsT : ∀ s, target ≠ userIconsDir env1 ++ [s] := by
      intro s
      rw [htarget]
      exact target_ne_iconPath env1 _ s
    rw [hs1, afterMove_lookup_ne _ _ _ _ hIconsT hDeskT]
    obtain ⟨c, hc⟩ := Option.isSome_iff_exists.mp h1
    have : ((st.fs.mkdirs (applicationsDir env1)).moveFile a target).lookupFile target
        = some c := by
      unfold FS.moveFile
      have hc' : (st.fs.mkdirs (applicationsDir env1)).lookupFile a = some c := hc
      rw [hc']
      exact lookupKey_insertKey_self _ _ _
    exact ⟨c, this⟩
  obtain ⟨c, hc⟩ := hcontent
  have h1' : s1.fs.fileExists target = true := by
    unfold FS.fileExists
    rw [hc]
    rfl
  have hsame2 : target = applicationsDir env2 ++ [lastSeg target] := by
    rw [happ, hlast, htarget]
  obtain ⟨preOut2, hrun2⟩ := install_samefile_shape env2 s1 target h1' hm2 hsame2
  set s2 := afterMove env2
    { fs := s1.fs.mkdirs (applicationsDir env2), scratch := s1.scratch, out := preOut2 }
    (applicationsDir env2 ++ [lastSeg target]) with hs2
  refine ⟨s1, s2, hrun1, hrun2, ?_⟩
  -- both descriptor contents are the canonical single-run content
  have hd2 : desktopFilePath env2 (applicationsDir env2 ++ [lastSeg target]) =
      desktopFilePath env1 target := by
    rw [← hsame2]
    unfold desktopFilePath userApplicationsDir
    rw [hh]
  have hlook2 := afterMove_desktop_lookup env2
    { fs := s1.fs.mkdirs (applicationsDir env2), scratch := s1.scratch, out := preOut2 }
    (applicationsDir env2 ++ [lastSeg target])
  rw [hd2] at hlook2
  rw [← hs2] at hlook2
  rw [hlook2]
  have hlook1 := afterMove_desktop_lookup env1
    { fs := (st.fs.mkdirs (applicationsDir env1)).moveFile a target,
      scratch := st.scratch, out := preOut1 } target
  rw [← hs1] at hlook1
  rw [hlook1]
  rw [← hsame2]
  rw [iconResultStr_congr env1 env2 target hh ht he hr]

/-- C4 witness: extraction exits non-zero; the descriptor is still written
with the fallback icon and a warning is printed. -/
theorem icon_failure_never_aborts_witness :
    stT.fs.fileExists aT = true ∧
    envFailT.moveOutcome = .success ∧
    (envFailT.extractOk = false ∨ envFailT.iconStageRaises = true) ∧
    (∃ st', install_appimage envFailT stT aT = .ok st' ∧
      st'.fs.lookupFile (desktopFilePath envFailT (applicationsDir envFailT ++ [lastSeg aT])) =
        some (desktopEntryContent (appDisplayName (applicationsDir envFailT ++ [lastSeg aT]))
          (renderPath (applicationsDir envFailT ++ [lastSeg aT])) fallbackIconId) ∧
      (∃ e, ("Error extracting icon: " ++ e) ∈ st'.out)) :=
  ⟨by decide, by decide, Or.inl (by decide),
    icon_failure_never_aborts envFailT stT aT (by decide) (by decide) (Or.inl (by decide))⟩

/-- C5 witness: a clean successful run ends with the scratch directory
gone. -/
theorem scratch_removed_on_every_path_witness :
    stT.fs.fileExists aT = true ∧
    (envOkT.moveOutcome = .success ∨
      (envOkT.moveOutcome = .shutilError ∧ aT = applicationsDir envOkT ++ [lastSeg aT])) ∧
    (∃ st', install_appimage envOkT stT aT = .ok st' ∧ st'.scratch = none) :=
  ⟨by decide, Or.inl (by decide),
    scratch_removed_on_every_path envOkT stT aT (by decide) (Or.inl (by decide))⟩

theorem aT_ne_iconsDir : ∀ s, aT ≠ userIconsDir envOkT ++ [s] := by
  intro s h
  have hlen := congrArg List.length h
  simp [aT, userIconsDir, envOkT] at hlen

theorem aT_ne_appsDir : ∀ s, aT ≠ userApplicationsDir envOkT ++ [s] := by
  intro s h
  have hlen := congrArg List.length h
  simp [aT, userApplicationsDir, envOkT] at hlen

/-- C6 witness: a concrete successful relocation. -/
theorem relocation_leaves_executable_target_witness :
    stT.fs.lookupFile aT = some "APPBYTES" ∧
    envOkT.moveOutcome = .success ∧
    aT ≠ applicationsDir envOkT ++ [lastSeg aT] ∧
    (∀ s, aT ≠ userIconsDir envOkT ++ [s]) ∧
    (∀ s, aT ≠ userApplicationsDir envOkT ++ [s]) ∧
    (∃ st', install_appimage envOkT stT aT = .ok st' ∧
      st'.fs.fileExists aT = false ∧
      st'.fs.lookupFile (applicationsDir envOkT ++ [lastSeg aT]) = some "APPBYTES" ∧
      st'.fs.getMode (applicationsDir envOkT ++ [lastSeg aT]) = stT.fs.getMode aT ||| 0o111 ∧
      st'.fs.getMode (applicationsDir envOkT ++ [lastSeg aT]) &&& 0o111 = 0o111 ∧
      st'.fs.getMode (applicationsDir envOkT ++ [lastSeg aT]) &&& stT.fs.getMode aT
        = stT.fs.getMode aT) :=
  ⟨by decide, by decide, by decide, aT_ne_iconsDir, aT_ne_appsDir,
    relocation_leaves_executable_target envOkT stT aT "APPBYTES" (by decide) (by decide)
      (by decide) aT_ne_iconsDir aT_ne_appsDir⟩

/-- C7 witness: reinstalling the already-installed package; the move raises
`shutil.Error` on the same file and the run still registers the
launcher. -/
theorem samefile_error_treated_as_success_witness :
    stInPlaceT.fs.fileExists aInPlaceT = true ∧
    envErrT.moveOutcome = .shutilError ∧
    aInPlaceT = applicationsDir envErrT ++ [lastSeg aInPlaceT] ∧
    (∃ st', install_appimage envErrT stInPlaceT aInPlaceT = .ok st' ∧
      st'.fs.lookupFile (desktopFilePath envErrT (applicationsDir envErrT ++ [lastSeg aInPlaceT])) =
        some (desktopEntryContent (appDisplayName (applicationsDir envErrT ++ [lastSeg aInPlaceT]))
          (renderPath (applicationsDir envErrT ++ [lastSeg aInPlaceT]))
          (iconResultStr envErrT (applicationsDir envErrT ++ [lastSeg aInPlaceT]))) ∧
      st'.scratch = none) :=
  ⟨by decide, by decide, by decide,
    samefile_error_treated_as_success envErrT stInPlaceT aInPlaceT
      (by decide) (by decide) (by decide)⟩

/-- C8 witness: install then reinstall; the descriptor content is the same
after both runs. -/
theorem second_run_overwrites_descriptor_witness :
    stT.fs.fileExists aT = true ∧
    envOkT.moveOutcome = .success ∧
    envErrT.moveOutcome = .shutilError ∧
    envErrT.home = envOkT.home ∧
    envErrT.tree = envOkT.tree ∧
    envErrT.extractOk = envOkT.extractOk ∧
    envErrT.iconStageRaises = envOkT.iconStageRaises ∧
    (∃ s1 s2,
      install_appimage envOkT stT aT = .ok s1 ∧
      install_appimage envErrT s1 (applicationsDir envOkT ++ [lastSeg aT]) = .ok s2 ∧
      s2.fs.lookupFile (desktopFilePath envOkT (applicationsDir envOkT ++ [lastSeg aT])) =
        s1.fs.lookupFile (desktopFilePath envOkT (applicationsDir envOkT ++ [lastSeg aT]))) :=
  ⟨by decide, by decide, by decide, by decide, by decide, by decide, by decide,
    second_run_overwrites_descriptor envOkT envErrT stT aT
      (by decide) (by decide) (by decide) (by decide) (by decide) (by decide) (by decide)⟩

/-- C10 witness: move raises `shutil.Error` with no file at the
destination; the run dies with an uncaught `FileNotFoundError`. -/
theorem move_error_missing_target_crashes_witness :
    stT.fs.fileExists aT = true ∧
    envErrT.moveOutcome = .shutilError ∧
    stT.fs.fileExists (applicationsDir envErrT ++ [lastSeg aT]) = false ∧
    install_appimage envErrT stT aT =
      .uncaught "FileNotFoundError" { stT with fs := stT.fs.mkdirs (applicationsDir envErrT) } :=
  ⟨by decide, by decide, by decide,
    move_error_missing_target_crashes envErrT stT aT (by decide) (by decide) (by decide)⟩

set_option maxRecDepth 16384 in
/-- C3 counterexample: on the spec's own example (`MyApp-1.2.3.AppImage`
with themed icons at `512x512` and `128x128`), the run succeeds but no file
named `myapp-1.2.3.appimage_appimage_icon.png` is installed (`Path.stem`
drops the final `.AppImage` suffix, so the slug is `myapp-1.2.3`), and the
descriptor is not the content whose Name line reads `Myapp 1.2.3.Appimage`. -/
theorem spec_example_names_wrong :
    isOkRun runC3 = true ∧
    (resultState runC3).fs.fileExists
      (["home","user",".local","share","icons","myapp-1.2.3.appimage_appimage_icon.png"])
      = false ∧
    (resultState runC3).fs.lookupFile
      (["home","user",".local","share","applications","MyApp-1.2.3.desktop"]) ≠
      some (desktopEntryContent "Myapp 1.2.3.Appimage"
        "/home/user/Applications/MyApp-1.2.3.AppImage"
        "/home/user/.local/share/icons/myapp-1.2.3.appimage_appimage_icon.png") :=
  ⟨by decide, by decide, by decide⟩

set_option maxRecDepth 16384 in
/-- C3 amended: on the spec example the installed icon file is named
`myapp-1.2.3_appimage_icon.png`, its bytes equal the 512x512 variant
(that path sorts lexicographically after the 128x128 one), and the
descriptor's Name line reads `Myapp-1.2.3`. -/
theorem spec_example_actual_names :
    isOkRun runC3 = true ∧
    (resultState runC3).fs.lookupFile
      (["home","user",".local","share","icons","myapp-1.2.3_appimage_icon.png"])
      = some "PNG512BYTES" ∧
    (resultState runC3).fs.lookupFile
      (["home","user",".local","share","applications","MyApp-1.2.3.desktop"]) =
      some ("[Desktop Entry]\nType=Application\nName=Myapp-1.2.3\nExec=/home/user/Applications/MyApp-1.2.3.AppImage\nIcon=/home/user/.local/share/icons/myapp-1.2.3_appimage_icon.png\nCategories=Utility;\nTerminal=false\n") :=
  ⟨by decide, by decide, by decide⟩

end InstallAppimage
